import Mathlib

/-
Verification of the C boundary of the evalexpr_rhai extension
(src/duckdb_evalexpr_rhai_rust/src/lib.rs): a shallow embedding of the
exported functions compile_ast, free_ast, eval_ast and perform_eval.

Modelling conventions:
- Byte buffers crossing the boundary (script text, context JSON, result
  strings, error messages) are lists of byte values (List Nat).
- A raw pointer that may be null is an Option; a null pointer is none.
- The external rhai interpreter and serde_json are collaborators; their
  behavior is a parameter (structure RhaiModel) so that theorems quantify
  over every possible collaborator, and concrete instances exercise them.
- A Rust panic (expect / unwrap) aborts the process; we model the result
  of each exported function as CallResult, whose abort variant records
  that the call never returns.
-/

namespace EvalexprRhai

/-- Byte buffers crossing the boundary, as lists of byte values. -/
abbrev Bytes : Type := List Nat

/-- The capability packages registered on an engine
(RandomPackage, FilesystemPackage, UrlPackage, SciPackage). -/
inductive Package where
  | random
  | filesystem
  | url
  | sci
deriving DecidableEq

/-- An interpreter instance together with its registered global modules
(rhai Engine plus the register_global_module calls made on it). -/
structure Engine where
  modules : List Package
deriving DecidableEq

/-- Engine::new() -/
def Engine.new : Engine := { modules := [] }

/-- engine.register_global_module(pkg.as_shared_module()) -/
def Engine.register_global_module (e : Engine) (p : Package) : Engine :=
  { modules := e.modules ++ [p] }

/-- A call-scoped variable scope (rhai Scope), a list of name/value bindings. -/
abbrev Scope (D : Type) : Type := List (String × D)

/-- Scope::new() -/
def Scope.new {D : Type} : Scope D := []

/-- scope.push(name, value) -/
def Scope.push {D : Type} (s : Scope D) (n : String) (v : D) : Scope D :=
  s ++ [(n, v)]

/-- The abstract behavior of the external collaborators: the rhai
interpreter (compile, eval_ast, eval_ast_with_scope, eval,
eval_with_scope, and the Display formatting of its errors) and serde_json
(from_str returning none on a parse failure, to_string returning none on
a serialization failure). The boundary code is parameterized over this
interface; theorems quantify over it. -/
structure RhaiModel where
  AST : Type
  Dynamic : Type
  ParseError : Type
  EvalError : Type
  compile : Engine → Bytes → Except ParseError AST
  evalAst : Engine → AST → Except EvalError Dynamic
  evalAstWithScope : Engine → Scope Dynamic → AST → Except EvalError Dynamic
  eval : Engine → Bytes → Except EvalError Dynamic
  evalWithScope : Engine → Scope Dynamic → Bytes → Except EvalError Dynamic
  formatParseError : ParseError → Bytes
  formatEvalError : EvalError → Bytes
  jsonFromStr : Bytes → Option Dynamic
  jsonToString : Dynamic → Option Bytes

/-- The CompiledAst struct: the engine that compiled the script together
with the compiled AST; they share a lifetime. -/
structure CompiledAst (M : RhaiModel) where
  engine : Engine
  ast : M.AST

/-- The ResultCString repr(C) enum: a tagged sum, Ok carrying a
possibly-null owned C string, Err carrying an owned error message. -/
inductive ResultCString where
  | Ok : Option Bytes → ResultCString
  | Err : Bytes → ResultCString
deriving DecidableEq

/-- The ResultCompiledAst repr(C) enum: a tagged sum, Ok carrying a
pointer to a CompiledAst, Err carrying an owned error message. -/
inductive ResultCompiledAst (M : RhaiModel) where
  | Ok : Option (CompiledAst M) → ResultCompiledAst M
  | Err : Bytes → ResultCompiledAst M

/-- The observable result of one boundary call: either it returns a value,
or the process aborts with a panic message (expect / unwrap). -/
inductive CallResult (α : Type) where
  | ret : α → CallResult α
  | abort : String → CallResult α
deriving DecidableEq

/-- The make_str macro: str::from_utf8_unchecked on the raw bytes.
No validation of any kind is performed: the bytes are reinterpreted as-is. -/
def make_str (s : Bytes) : Bytes := s

/-- The make_str2 macro: identical unchecked reinterpretation,
used for the context bytes inside eval_ast. -/
def make_str2 (s : Bytes) : Bytes := s

/-- CString::new: fails (returns none) when the bytes contain an interior
NUL byte, otherwise takes ownership of the bytes. -/
def CString.new (s : Bytes) : Option Bytes :=
  if 0 ∈ s then none else some s

/-- The name under which the decoded context value is bound in the scope. -/
def ctxName : String := "context"

/-- Panic message of CString::new(...).unwrap() on a None value. -/
def unwrapNoneMsg : String := "called Option unwrap on a None value"

/-- Panic message of the expect on context decoding inside eval_ast. -/
def evalAstCtxMsg : String := "JSON context was not well formed."

/-- Panic message of the expect on result serialization inside eval_ast. -/
def evalAstSerMsg : String := "Failed to serialize Rhai result to JSON"

/-- Panic message of the expect on result serialization inside perform_eval. -/
def performSerMsg : String := "Failed to serialize result to JSON"

/-- Panic message of the expect on context decoding inside perform_eval
(the source formats the context length into the message). -/
def performCtxMsg (n : Nat) : String :=
  "JSON context was not well formed, length " ++ toString n

/-- The engine built by compile_ast (lib.rs lines 62-67): fresh engine with
RandomPackage, FilesystemPackage, UrlPackage and SciPackage registered
as global modules, in that order. -/
def compile_ast_engine : Engine :=
  ((((Engine.new.register_global_module Package.random).register_global_module
    Package.filesystem).register_global_module
    Package.url).register_global_module Package.sci)

/-- The engine built by perform_eval (lib.rs lines 170-175): fresh engine
with RandomPackage, FilesystemPackage and UrlPackage registered as global
modules, in that order. SciPackage is not registered on this path. -/
def perform_eval_engine : Engine :=
  (((Engine.new.register_global_module Package.random).register_global_module
    Package.filesystem).register_global_module Package.url)

/-- The shared tail of eval_ast and perform_eval (the match on the
evaluation result): on success, serialize the dynamic value with
serde_json::to_string (expect aborts on failure), wrap it in a CString
(unwrap aborts on an interior NUL) and return it as the Ok variant; on an
evaluation error, format the error, wrap it in a CString and return it as
the Err variant. -/
def encode_output (M : RhaiModel) (serMsg : String)
    (result : Except M.EvalError M.Dynamic) : CallResult ResultCString :=
  match result with
  | Except.ok output =>
      match M.jsonToString output with
      | none => CallResult.abort serMsg
      | some json =>
          match CString.new json with
          | none => CallResult.abort unwrapNoneMsg
          | some value_str => CallResult.ret (ResultCString.Ok (some value_str))
  | Except.error error =>
      match CString.new (M.formatEvalError error) with
      | none => CallResult.abort unwrapNoneMsg
      | some error_str => CallResult.ret (ResultCString.Err error_str)

/-- compile_ast (lib.rs lines 56-89): reinterpret the script bytes
unchecked, build the engine with the four packages, compile; on success
box the CompiledAst and return it as the Ok variant (Box::into_raw is
never null), on a parse error format it and return it as the Err variant. -/
def compile_ast (M : RhaiModel) (expression : Bytes) :
    CallResult (ResultCompiledAst M) :=
  let expr_str := make_str expression
  match M.compile compile_ast_engine expr_str with
  | Except.ok ast =>
      CallResult.ret (ResultCompiledAst.Ok
        (some { engine := compile_ast_engine, ast := ast }))
  | Except.error error =>
      match CString.new (M.formatParseError error) with
      | none => CallResult.abort unwrapNoneMsg
      | some error_str => CallResult.ret (ResultCompiledAst.Err error_str)

/-- free_ast (lib.rs lines 91-99), acting on an explicit heap of live
allocations: a null pointer returns immediately with no effect; otherwise
Box::from_raw reclaims and drops the allocation at that address. -/
def free_ast (M : RhaiModel) (heap : List (Nat × CompiledAst M))
    (p : Option Nat) : List (Nat × CompiledAst M) :=
  match p with
  | none => heap
  | some addr => heap.filter (fun kv => kv.1 != addr)

/-- eval_ast (lib.rs lines 105-151): a null handle returns Ok(null);
with a non-zero context length the context bytes are reinterpreted
unchecked, parsed by serde_json (expect aborts on failure), bound under
the name context in a fresh scope, and the AST is evaluated with that
scope; with a zero context length the AST is evaluated with no scope;
the result is encoded by the shared tail. -/
def eval_ast (M : RhaiModel) (compiled : Option (CompiledAst M))
    (context_json : Bytes) : CallResult ResultCString :=
  match compiled with
  | none => CallResult.ret (ResultCString.Ok none)
  | some c =>
      if context_json.length = 0 then
        encode_output M evalAstSerMsg (M.evalAst c.engine c.ast)
      else
        match M.jsonFromStr (make_str2 context_json) with
        | none => CallResult.abort evalAstCtxMsg
        | some context =>
            let scope := Scope.push Scope.new ctxName context
            encode_output M evalAstSerMsg
              (M.evalAstWithScope c.engine scope c.ast)

/-- perform_eval (lib.rs lines 157-210): a null or zero-length script
returns Ok(null); otherwise a fresh engine with the random, filesystem
and url packages is built, the optional context is decoded exactly as in
eval_ast (with a length-bearing expect message), and the script text is
evaluated directly; the result is encoded by the shared tail. -/
def perform_eval (M : RhaiModel) (expression : Option Bytes)
    (context_json : Bytes) : CallResult ResultCString :=
  match expression with
  | none => CallResult.ret (ResultCString.Ok none)
  | some expr =>
      if expr.length = 0 then
        CallResult.ret (ResultCString.Ok none)
      else
        let expr_str := make_str expr
        if context_json.length = 0 then
          encode_output M performSerMsg (M.eval perform_eval_engine expr_str)
        else
          match M.jsonFromStr (make_str context_json) with
          | none => CallResult.abort (performCtxMsg context_json.length)
          | some context =>
              let scope := Scope.push Scope.new ctxName context
              encode_output M performSerMsg
                (M.evalWithScope perform_eval_engine scope expr_str)

/-- Whether a byte is a UTF-8 continuation byte (0x80..0xBF). -/
def isContByte (b : Nat) : Bool := decide (128 ≤ b) && decide (b ≤ 191)

/-- Fuel-indexed UTF-8 validity check over byte lists (standard table:
ASCII, 2-byte leads 0xC2..0xDF, 3-byte leads 0xE0..0xEF with overlong and
surrogate exclusions, 4-byte leads 0xF0..0xF4 with range exclusions). -/
def validUtf8Aux : Nat → List Nat → Bool
  | 0, l => l.isEmpty
  | _ + 1, [] => true
  | fuel + 1, b :: rest =>
    if b ≤ 127 then validUtf8Aux fuel rest
    else if 194 ≤ b ∧ b ≤ 223 then
      match rest with
      | c1 :: r => isContByte c1 && validUtf8Aux fuel r
      | [] => false
    else if b = 224 then
      match rest with
      | c1 :: c2 :: r =>
          decide (160 ≤ c1) && decide (c1 ≤ 191) && isContByte c2 &&
            validUtf8Aux fuel r
      | _ => false
    else if (225 ≤ b ∧ b ≤ 236) ∨ b = 238 ∨ b = 239 then
      match rest with
      | c1 :: c2 :: r => isContByte c1 && isContByte c2 && validUtf8Aux fuel r
      | _ => false
    else if b = 237 then
      match rest with
      | c1 :: c2 :: r =>
          decide (128 ≤ c1) && decide (c1 ≤ 159) && isContByte c2 &&
            validUtf8Aux fuel r
      | _ => false
    else if b = 240 then
      match rest with
      | c1 :: c2 :: c3 :: r =>
          decide (144 ≤ c1) && decide (c1 ≤ 191) && isContByte c2 &&
            isContByte c3 && validUtf8Aux fuel r
      | _ => false
    else if 241 ≤ b ∧ b ≤ 243 then
      match rest with
      | c1 :: c2 :: c3 :: r =>
          isContByte c1 && isContByte c2 && isContByte c3 && validUtf8Aux fuel r
      | _ => false
    else if b = 244 then
      match rest with
      | c1 :: c2 :: c3 :: r =>
          decide (128 ≤ c1) && decide (c1 ≤ 143) && isContByte c2 &&
            isContByte c3 && validUtf8Aux fuel r
      | _ => false
    else false

/-- UTF-8 validity of a byte list. -/
def validUtf8 (l : List Nat) : Bool := validUtf8Aux l.length l

/-- Whether every byte of a buffer is ASCII. -/
def asciiOnly (b : Bytes) : Bool := b.all (fun x => decide (x ≤ 127))

/-- A concrete collaborator instance used to exercise the theorems:
scripts are their own ASTs, evaluation returns the script bytes extended
with the scope values, the JSON parser accepts exactly the all-ASCII
buffers, and serialization fails exactly on buffers containing a NUL
byte or a non-ASCII byte. -/
def M0 : RhaiModel where
  AST := Bytes
  Dynamic := Bytes
  ParseError := Bytes
  EvalError := Bytes
  compile := fun _ s =>
    if s = [49, 32, 43] then Except.error [83, 69] else Except.ok s
  evalAst := fun _ a => Except.ok a
  evalAstWithScope := fun _ sc a => Except.ok (a ++ (sc.map Prod.snd).flatten)
  eval := fun _ s => Except.ok s
  evalWithScope := fun _ sc s => Except.ok (s ++ (sc.map Prod.snd).flatten)
  formatParseError := fun e => e
  formatEvalError := fun e => e
  jsonFromStr := fun b => if asciiOnly b then some b else none
  jsonToString := fun d =>
    if d.any (fun x => decide (x = 0) || decide (128 ≤ x)) then none else some d

/-- A concrete compiled handle over M0 whose AST is the single byte 0,
so that a successful evaluation produces an unserializable value. -/
def c0 : CompiledAst M0 := { engine := compile_ast_engine, ast := [0] }

/-- Numeric tags for packages, used by the probe collaborator. -/
def encodePackage : Package → Nat
  | Package.random => 1
  | Package.filesystem => 2
  | Package.url => 3
  | Package.sci => 4

/-- A probe collaborator whose evaluation result is the list of modules
registered on the engine it is given, so that the boundary output reveals
exactly which packages were registered before evaluation. -/
def Mprobe : RhaiModel where
  AST := Unit
  Dynamic := List Package
  ParseError := Unit
  EvalError := Unit
  compile := fun _ _ => Except.ok ()
  evalAst := fun e _ => Except.ok e.modules
  evalAstWithScope := fun e _ _ => Except.ok e.modules
  eval := fun e _ => Except.ok e.modules
  evalWithScope := fun e _ _ => Except.ok e.modules
  formatParseError := fun _ => []
  formatEvalError := fun _ => []
  jsonFromStr := fun _ => some []
  jsonToString := fun mods => some (mods.map encodePackage)

/-- Claim C4: eval_ast with a null Program handle returns a success
Outcome (Ok variant) carrying a null payload, not an error, regardless of
the context arguments. -/
theorem eval_ast_null_handle_ok (M : RhaiModel) (ctx : Bytes) :
    eval_ast M none ctx = CallResult.ret (ResultCString.Ok none) := rfl

/-- Claim C5: perform_eval with a null script pointer, or with a script of
length zero, returns a success Outcome with a null payload and never an
error. -/
theorem perform_eval_null_or_empty_script_ok (M : RhaiModel)
    (expr ctx : Bytes) :
    perform_eval M none ctx = CallResult.ret (ResultCString.Ok none) ∧
    (expr.length = 0 →
      perform_eval M (some expr) ctx =
        CallResult.ret (ResultCString.Ok none)) := by
  refine ⟨rfl, fun h => ?_⟩
  simp [perform_eval, h]

/-- Witness for C5 at concrete inputs: the null pointer and the empty
script, each with a non-empty context. -/
theorem perform_eval_null_or_empty_script_ok_witness :
    perform_eval M0 none [65] = CallResult.ret (ResultCString.Ok none) ∧
    perform_eval M0 (some []) [65] = CallResult.ret (ResultCString.Ok none) :=
  ⟨(perform_eval_null_or_empty_script_ok M0 [] [65]).1,
    (perform_eval_null_or_empty_script_ok M0 [] [65]).2 rfl⟩

/-- Claim C6: free_ast with a null handle is a no-op: it does not fail,
does not dereference the pointer, and leaves the heap of live allocations
unchanged. -/
theorem free_ast_null_noop (M : RhaiModel)
    (heap : List (Nat × CompiledAst M)) :
    free_ast M heap none = heap := rfl

/-- Claim C9: both boundary Outcome types are tagged sums with exactly one
populated variant: a ResultCString or ResultCompiledAst value is the Ok
variant if and only if it is not the Err variant, so carrying both
payloads, or neither, is unrepresentable. -/
theorem outcome_exactly_one_variant (M : RhaiModel) (r : ResultCString)
    (q : ResultCompiledAst M) :
    ((∃ p, r = ResultCString.Ok p) ↔ ¬ ∃ e, r = ResultCString.Err e) ∧
    ((∃ p, q = ResultCompiledAst.Ok p) ↔
      ¬ ∃ e, q = ResultCompiledAst.Err e) := by
  constructor
  · cases r with
    | Ok p => simp
    | Err e => simp
  · cases q with
    | Ok p => simp
    | Err e => simp

/-- Claim C1 counterexample: the claim that perform_eval registers the
full capability set is false. The scientific package is absent from the
engine perform_eval builds, and the probe collaborator observes it: for
the non-empty script [49] the evaluation sees an engine whose module tags
are exactly [1, 2, 3] (random, filesystem, url), with no tag 4 (sci). -/
theorem perform_eval_missing_sci_package :
    Package.sci ∉ perform_eval_engine.modules ∧
    perform_eval Mprobe (some [49]) [] =
      CallResult.ret (ResultCString.Ok (some [1, 2, 3])) := by
  exact ⟨by decide, rfl⟩

/-- Claim C1 (amended): for every call to perform_eval with a non-null,
non-empty script, a fresh Engine with the capability set
{random, filesystem, url} — without scientific — is built and used to
evaluate the script, on both the no-context and with-context paths. -/
theorem perform_eval_capability_set (M : RhaiModel) (expr ctx : Bytes)
    (h : expr ≠ []) :
    perform_eval_engine.modules =
      [Package.random, Package.filesystem, Package.url] ∧
    (ctx = [] →
      perform_eval M (some expr) ctx =
        encode_output M performSerMsg
          (M.eval perform_eval_engine (make_str expr))) ∧
    (∀ v, ctx ≠ [] → M.jsonFromStr (make_str ctx) = some v →
      perform_eval M (some expr) ctx =
        encode_output M performSerMsg
          (M.evalWithScope perform_eval_engine
            (Scope.push Scope.new ctxName v) (make_str expr))) := by
  have hlen : ¬ expr.length = 0 := by simpa [List.length_eq_zero] using h
  refine ⟨rfl, fun hc => ?_, fun v hc hjson => ?_⟩
  · subst hc
    simp [perform_eval, hlen]
  · have hclen : ¬ ctx.length = 0 := by simpa [List.length_eq_zero] using hc
    simp [perform_eval, hlen, hclen, hjson]

/-- Witness for the amended C1 at concrete inputs: script [49] with an
empty context and with the context [65]. -/
theorem perform_eval_capability_set_witness :
    perform_eval_engine.modules =
      [Package.random, Package.filesystem, Package.url] ∧
    perform_eval M0 (some [49]) [] =
      encode_output M0 performSerMsg
        (M0.eval perform_eval_engine (make_str [49])) ∧
    perform_eval M0 (some [49]) [65] =
      encode_output M0 performSerMsg
        (M0.evalWithScope perform_eval_engine
          (Scope.push Scope.new ctxName [65]) (make_str [49])) :=
  ⟨(perform_eval_capability_set M0 [49] [] (by decide)).1,
    (perform_eval_capability_set M0 [49] [] (by decide)).2.1 rfl,
    (perform_eval_capability_set M0 [49] [65] (by decide)).2.2 [65]
      (by decide) rfl⟩

/-- Claim C2: with a live handle (eval_ast) or a non-empty script
(perform_eval), a non-empty context whose bytes serde_json rejects aborts
the process instead of returning the Err variant; and on every path where
evaluation succeeds but the resulting dynamic value cannot be serialized
to JSON, the call likewise aborts. -/
theorem evaluation_aborts_on_malformed_context_or_unencodable_result
    (M : RhaiModel) (c : CompiledAst M) (expr ctx : Bytes) :
    (ctx ≠ [] → M.jsonFromStr (make_str2 ctx) = none →
      eval_ast M (some c) ctx = CallResult.abort evalAstCtxMsg) ∧
    (expr ≠ [] → ctx ≠ [] → M.jsonFromStr (make_str ctx) = none →
      perform_eval M (some expr) ctx =
        CallResult.abort (performCtxMsg ctx.length)) ∧
    (∀ d, M.evalAst c.engine c.ast = Except.ok d → M.jsonToString d = none →
      eval_ast M (some c) [] = CallResult.abort evalAstSerMsg) ∧
    (∀ v d, ctx ≠ [] → M.jsonFromStr (make_str2 ctx) = some v →
      M.evalAstWithScope c.engine (Scope.push Scope.new ctxName v) c.ast =
        Except.ok d →
      M.jsonToString d = none →
      eval_ast M (some c) ctx = CallResult.abort evalAstSerMsg) ∧
    (∀ d, expr ≠ [] →
      M.eval perform_eval_engine (make_str expr) = Except.ok d →
      M.jsonToString d = none →
      perform_eval M (some expr) [] = CallResult.abort performSerMsg) ∧
    (∀ v d, expr ≠ [] → ctx ≠ [] → M.jsonFromStr (make_str ctx) = some v →
      M.evalWithScope perform_eval_engine (Scope.push Scope.new ctxName v)
        (make_str expr) = Except.ok d →
      M.jsonToString d = none →
      perform_eval M (some expr) ctx = CallResult.abort performSerMsg) := by
  refine ⟨fun hc hjson => ?_, fun he hc hjson => ?_, fun d h1 h2 => ?_,
    fun v d hc hjson hev hser => ?_, fun d he hev hser => ?_,
    fun v d he hc hjson hev hser => ?_⟩
  · have hclen : ¬ ctx.length = 0 := by simpa [List.length_eq_zero] using hc
    simp [eval_ast, hclen, hjson]
  · have helen : ¬ expr.length = 0 := by simpa [List.length_eq_zero] using he
    have hclen : ¬ ctx.length = 0 := by simpa [List.length_eq_zero] using hc
    simp [perform_eval, helen, hclen, hjson]
  · simp [eval_ast, encode_output, h1, h2]
  · have hclen : ¬ ctx.length = 0 := by simpa [List.length_eq_zero] using hc
    simp [eval_ast, encode_output, hclen, hjson, hev, hser]
  · have helen : ¬ expr.length = 0 := by simpa [List.length_eq_zero] using he
    simp [perform_eval, encode_output, helen, hev, hser]
  · have helen : ¬ expr.length = 0 := by simpa [List.length_eq_zero] using he
    have hclen : ¬ ctx.length = 0 := by simpa [List.length_eq_zero] using hc
    simp [perform_eval, encode_output, helen, hclen, hjson, hev, hser]

/-- Witness for C2 at concrete inputs over M0: the non-ASCII context
[200] is rejected by the JSON parser and aborts both entry points; the
handle c0 (AST [0]) and the script [0] evaluate to the unserializable
value [0] and abort on serialization, with and without a context. -/
theorem evaluation_aborts_witness :
    eval_ast M0 (some c0) [200] = CallResult.abort evalAstCtxMsg ∧
    perform_eval M0 (some [49]) [200] =
      CallResult.abort (performCtxMsg 1) ∧
    eval_ast M0 (some c0) [] = CallResult.abort evalAstSerMsg ∧
    eval_ast M0 (some c0) [65] = CallResult.abort evalAstSerMsg ∧
    perform_eval M0 (some [0]) [] = CallResult.abort performSerMsg ∧
    perform_eval M0 (some [0]) [65] = CallResult.abort performSerMsg :=
  ⟨(evaluation_aborts_on_malformed_context_or_unencodable_result
      M0 c0 [49] [200]).1 (by decide) rfl,
    (evaluation_aborts_on_malformed_context_or_unencodable_result
      M0 c0 [49] [200]).2.1 (by decide) (by decide) rfl,
    (evaluation_aborts_on_malformed_context_or_unencodable_result
      M0 c0 [49] [200]).2.2.1 [0] rfl rfl,
    (evaluation_aborts_on_malformed_context_or_unencodable_result
      M0 c0 [49] [65]).2.2.2.1 [65] [0, 65] (by decide) rfl rfl rfl,
    (evaluation_aborts_on_malformed_context_or_unencodable_result
      M0 c0 [0] [65]).2.2.2.2.1 [0] (by decide) rfl rfl,
    (evaluation_aborts_on_malformed_context_or_unencodable_result
      M0 c0 [0] [65]).2.2.2.2.2 [65] [0, 65] (by decide) (by decide)
      rfl rfl rfl⟩

/-- Claim C3 counterexample: the claim that invalid-UTF-8 context bytes
are reported as a ContextDecodeError outcome is false. The byte [255] is
not valid UTF-8, yet eval_ast on a live handle aborts the process with
the malformed-JSON panic message — the bytes reached the JSON parser
without any UTF-8 validation, and no error outcome is returned. -/
theorem context_utf8_not_validated_cex :
    validUtf8 [255] = false ∧
    eval_ast M0 (some c0) [255] = CallResult.abort evalAstCtxMsg := by
  exact ⟨rfl, rfl⟩

/-- Claim C3 (amended): context bytes are reinterpreted as a string with
no UTF-8 validation at all (make_str2 is the unchecked identity on the
bytes) and handed directly to the JSON parser; when the parser rejects
them the call aborts the process, so invalid UTF-8 is never reported as a
ContextDecodeError outcome. -/
theorem context_bytes_passed_unchecked (M : RhaiModel) (c : CompiledAst M)
    (ctx : Bytes) (h : ctx ≠ []) (hjson : M.jsonFromStr (make_str2 ctx) = none) :
    make_str2 ctx = ctx ∧
    eval_ast M (some c) ctx = CallResult.abort evalAstCtxMsg := by
  have hclen : ¬ ctx.length = 0 := by simpa [List.length_eq_zero] using h
  exact ⟨rfl, by simp [eval_ast, hclen, hjson]⟩

/-- Witness for the amended C3 at the concrete invalid-UTF-8 context
[254] over M0. -/
theorem context_bytes_passed_unchecked_witness :
    make_str2 [254] = [254] ∧
    eval_ast M0 (some c0) [254] = CallResult.abort evalAstCtxMsg :=
  context_bytes_passed_unchecked M0 c0 [254] (by decide) rfl

/-- Claim C7: when the collaborator's parser rejects the script,
compile_ast returns the Err variant carrying exactly the formatted parser
error (non-empty, per the collaborator's contract on its Display output),
and no CompiledAst handle is produced; when the parser accepts it,
compile_ast returns the Ok variant carrying a non-null handle that
bundles the engine with the compiled AST. -/
theorem compile_ast_outcomes (M : RhaiModel) (expr : Bytes) :
    (∀ e, M.compile compile_ast_engine (make_str expr) = Except.error e →
      M.formatParseError e ≠ [] → 0 ∉ M.formatParseError e →
      compile_ast M expr =
        CallResult.ret (ResultCompiledAst.Err (M.formatParseError e)) ∧
      M.formatParseError e ≠ []) ∧
    (∀ a, M.compile compile_ast_engine (make_str expr) = Except.ok a →
      compile_ast M expr =
        CallResult.ret (ResultCompiledAst.Ok
          (some { engine := compile_ast_engine, ast := a }))) := by
  refine ⟨fun e h hne hnul => ⟨?_, hne⟩, fun a h => ?_⟩
  · simp [compile_ast, h, CString.new, hnul]
  · simp [compile_ast, h]

/-- Witness for C7 at concrete inputs over M0: the script [49, 32, 43]
(the text 1 +) fails to parse and yields the Err variant with the
non-empty message [83, 69]; the script [50] parses and yields the Ok
variant with a non-null handle. -/
theorem compile_ast_outcomes_witness :
    (compile_ast M0 [49, 32, 43] =
      CallResult.ret (ResultCompiledAst.Err [83, 69]) ∧
      ([83, 69] : Bytes) ≠ []) ∧
    compile_ast M0 [50] =
      CallResult.ret (ResultCompiledAst.Ok
        (some { engine := compile_ast_engine, ast := [50] })) :=
  ⟨(compile_ast_outcomes M0 [49, 32, 43]).1 [83, 69] rfl (by decide)
      (by decide),
    (compile_ast_outcomes M0 [50]).2 [50] rfl⟩

/-- Claim C8: on a live handle, a non-empty context is decoded by the
JSON parser and bound under the name context in a fresh call-scoped
scope (Scope::new() followed by one push, that is the singleton binding
list) that is used to evaluate the AST; an empty context evaluates the
AST with no scope at all. -/
theorem eval_ast_context_scoping (M : RhaiModel) (c : CompiledAst M)
    (ctx : Bytes) :
    (∀ v, ctx ≠ [] → M.jsonFromStr (make_str2 ctx) = some v →
      eval_ast M (some c) ctx =
        encode_output M evalAstSerMsg
          (M.evalAstWithScope c.engine (Scope.push Scope.new ctxName v)
            c.ast) ∧
      Scope.push Scope.new ctxName v = [(ctxName, v)]) ∧
    eval_ast M (some c) [] =
      encode_output M evalAstSerMsg (M.evalAst c.engine c.ast) := by
  refine ⟨fun v hc hjson => ⟨?_, rfl⟩, rfl⟩
  have hclen : ¬ ctx.length = 0 := by simpa [List.length_eq_zero] using hc
  simp [eval_ast, hclen, hjson]

/-- Witness for C8 at the concrete context [66] over M0. -/
theorem eval_ast_context_scoping_witness :
    eval_ast M0 (some c0) [66] =
      encode_output M0 evalAstSerMsg
        (M0.evalAstWithScope c0.engine (Scope.push Scope.new ctxName [66])
          c0.ast) ∧
    Scope.push Scope.new ctxName ([66] : Bytes) = [(ctxName, [66])] :=
  (eval_ast_context_scoping M0 c0 [66]).1 [66] (by decide) rfl

/-- Claim C10: compile_ast applies no empty-script special case: the
empty script is handed to the compiler like any other, and when the
compiler accepts it the result is the Ok variant with a non-null handle —
unlike perform_eval, which returns the null-payload no-op for the same
empty script. -/
theorem compile_ast_empty_script_no_special_case (M : RhaiModel)
    (ctx : Bytes) :
    (∀ a, M.compile compile_ast_engine (make_str []) = Except.ok a →
      compile_ast M [] =
        CallResult.ret (ResultCompiledAst.Ok
          (some { engine := compile_ast_engine, ast := a }))) ∧
    perform_eval M (some []) ctx = CallResult.ret (ResultCString.Ok none) := by
  refine ⟨fun a h => ?_, rfl⟩
  simp [compile_ast, h]

/-- Witness for C10 at concrete inputs over M0: the empty script compiles
to a non-null handle, while perform_eval on the same empty script returns
the null-payload success. -/
theorem compile_ast_empty_script_no_special_case_witness :
    compile_ast M0 [] =
      CallResult.ret (ResultCompiledAst.Ok
        (some { engine := compile_ast_engine, ast := [] })) ∧
    perform_eval M0 (some []) [65] = CallResult.ret (ResultCString.Ok none) :=
  ⟨(compile_ast_empty_script_no_special_case M0 [65]).1 [] rfl,
    (compile_ast_empty_script_no_special_case M0 [65]).2⟩

end EvalexprRhai
